import Mathlib

/-!
Verification of the chatjam chat UI (src/chatjam.py) against its specification.

Strings are embedded as lists of characters (`PyStr`), with helper functions
mirroring the Python string operations used by the source.  External
collaborators (the OpenAI client, the Google CSE HTTP call, the image download,
the clock, the fonts) are modelled as oracle fields of a `World` record; the
control flow of the source functions is translated statement by statement.
-/

namespace Chatjam

abbrev PyStr := List Char

/-- Python whitespace set for `str.strip` and the regex class `\s`. -/
def isPySpace (c : Char) : Bool :=
  c == ' ' || c == '\t' || c == '\n' || c == '\r' || c == Char.ofNat 11 || c == Char.ofNat 12

/-- Python `str.lower` (ASCII). -/
def pyLower (s : PyStr) : PyStr := s.map Char.toLower

/-- Python `str.strip()`: drop whitespace from both ends. -/
def pyStrip (s : PyStr) : PyStr :=
  ((s.dropWhile isPySpace).reverse.dropWhile isPySpace).reverse

/-- Python `s.startswith(p)`. -/
def pyStartsWith (s p : PyStr) : Bool := decide (s.take p.length = p)

/-- Python `s.endswith(p)`. -/
def pyEndsWith (s p : PyStr) : Bool :=
  decide (p.length ≤ s.length ∧ s.drop (s.length - p.length) = p)

/-- Python `s.split(c, 1)[1]` for a separator known to occur in `s`
(everything after the first occurrence of `c`). -/
def afterFirstChar (c : Char) : PyStr → PyStr
  | [] => []
  | x :: t => if x = c then t else afterFirstChar c t

/-- Python `s.split(' ')` (splits at every single space, keeping empties). -/
def pySplitSpaceAux : PyStr → PyStr → List PyStr
  | [], cur => [cur.reverse]
  | ' ' :: t, cur => cur.reverse :: pySplitSpaceAux t []
  | c :: t, cur => pySplitSpaceAux t (c :: cur)

def pySplitSpace (s : PyStr) : List PyStr := pySplitSpaceAux s []

/-- Python `str.splitlines` restricted to the newline character
(a terminating newline does not yield a trailing empty line). -/
def pySplitLinesAux : PyStr → PyStr → List PyStr
  | [], cur => [cur.reverse]
  | '\n' :: t, cur =>
    if t = [] then [cur.reverse] else cur.reverse :: pySplitLinesAux t []
  | c :: t, cur => pySplitLinesAux t (c :: cur)

def pySplitLines (s : PyStr) : List PyStr :=
  if s = [] then [] else pySplitLinesAux s []

/-- Index of the first occurrence of `needle` in the haystack, if any. -/
def findSubAux (needle : PyStr) : PyStr → Nat → Option Nat
  | [], i => if needle = [] then some i else none
  | c :: t, i =>
    if pyStartsWith (c :: t) needle then some i else findSubAux needle t (i + 1)

def findSub (needle hay : PyStr) : Option Nat := findSubAux needle hay 0

/-- Python `needle in hay` substring test. -/
def isSubStr (needle hay : PyStr) : Bool := (findSub needle hay).isSome

def backtickChar : Char := Char.ofNat 96

/-- Python `part.strip(chr(96))`: drop a given character from both ends. -/
def pyStripChar (c : Char) (s : PyStr) : PyStr :=
  ((s.dropWhile (· == c)).reverse.dropWhile (· == c)).reverse

def bq3 : PyStr := [backtickChar, backtickChar, backtickChar]

/-- Python `re.split` with the capturing pattern for lazily matched
triple-backtick fenced regions: alternating plain and captured code parts.
The fuel argument bounds the recursion; `splitCodeBlocks` supplies enough. -/
def splitCodeBlocksAux : Nat → PyStr → List PyStr
  | 0, s => [s]
  | fuel + 1, s =>
    match findSub bq3 s with
    | none => [s]
    | some i =>
      match findSub bq3 (s.drop (i + 3)) with
      | none => [s]
      | some j =>
        s.take i :: (s.take (i + j + 6)).drop i ::
          splitCodeBlocksAux fuel (s.drop (i + j + 6))

def splitCodeBlocks (s : PyStr) : List PyStr := splitCodeBlocksAux (s.length + 1) s

def urlPreS : PyStr := "https://".toList
def urlPreP : PyStr := "http://".toList

/-- Length of a match of the regex `https?://[^\s]+` anchored at the head of
`s`, if any (the scheme prefix followed by a maximal nonempty run of
non-whitespace characters). -/
def urlMatchLen (s : PyStr) : Option Nat :=
  if pyStartsWith s urlPreS then
    let run := ((s.drop urlPreS.length).takeWhile (fun c => !isPySpace c)).length
    if run ≥ 1 then some (urlPreS.length + run) else none
  else if pyStartsWith s urlPreP then
    let run := ((s.drop urlPreP.length).takeWhile (fun c => !isPySpace c)).length
    if run ≥ 1 then some (urlPreP.length + run) else none
  else none

/-- Python `re.finditer` for the URL regex: the `(start, end)` index pairs of
the successive non-overlapping leftmost matches. -/
def urlFinditerAux : Nat → PyStr → Nat → List (Nat × Nat)
  | 0, _, _ => []
  | _, [], _ => []
  | fuel + 1, c :: t, i =>
    match urlMatchLen (c :: t) with
    | some len => (i, i + len) :: urlFinditerAux fuel ((c :: t).drop len) (i + len)
    | none => urlFinditerAux fuel t (i + 1)

def urlFinditer (s : PyStr) : List (Nat × Nat) := urlFinditerAux (s.length + 1) s 0

def hexDigit (n : Nat) : Char := if n < 10 then Char.ofNat (48 + n) else Char.ofNat (55 + n)

/-- UTF-8 bytes of a character, as numbers. -/
def utf8Bytes (c : Char) : List Nat :=
  let n := c.toNat
  if n < 128 then [n]
  else if n < 2048 then [192 + n / 64, 128 + n % 64]
  else if n < 65536 then [224 + n / 4096, 128 + (n / 64) % 64, 128 + n % 64]
  else [240 + n / 262144, 128 + (n / 4096) % 64, 128 + (n / 64) % 64, 128 + n % 64]

def quoteSafeChar (c : Char) : Bool :=
  c.isAlphanum || c == '_' || c == '.' || c == '-' || c == '~' || c == '/'

/-- Python `urllib.parse.quote` with the default safe set. -/
def pyQuote (s : PyStr) : PyStr :=
  (s.map (fun c =>
    if quoteSafeChar c then [c]
    else ((utf8Bytes c).map (fun b => ['%', hexDigit (b / 16), hexDigit (b % 16)])).flatten)).flatten

def apos : Char := Char.ofNat 39

/-! ## Fonts and external world -/

/-- A text-measurement collaborator: rendered pixel width and height of a
string, as supplied by `pygame.font` in the source. -/
structure Font where
  wfn : PyStr → Nat
  hfn : PyStr → Nat

structure Fonts where
  font : Font
  big : Font
  mono : Font

/-- A Google CSE result item; `link` is `items[n].get(chr(39) ++ "link" ...)`,
absent when the JSON item lacks the key. -/
structure CseItem where
  link : Option PyStr

/-- The external collaborators and environment consumed by the source:
environment variables, the OpenAI client, the CSE HTTP request, the image
download, the clock, the fonts and the image loader. -/
structure World where
  openai_installed : Bool
  openai_api_key : Option PyStr
  google_api_key : Option PyStr
  google_cx : Option PyStr
  asctime : PyStr
  now : Nat
  openai_chat : PyStr → Except PyStr PyStr
  cse_http : PyStr → PyStr → PyStr → Option (Option (List CseItem))
  download : PyStr → Option PyStr
  fonts : Fonts
  imgLoad : PyStr → Option (Nat × Nat)

/-- Python truthiness of an optional string (`None` and the empty string are
falsy). -/
def pyTruthyOpt : Option PyStr → Bool
  | none => false
  | some s => !s.isEmpty

/-! ## Message constants of the source -/

def weatherMsg : PyStr :=
  "I don".toList ++ [apos] ++
  "t have live weather here, but remember to bring a jacket if it".toList ++
  [apos] ++ "s cold!".toList

def timeMsgPre : PyStr := "Local time is ".toList

def helloMsg : PyStr := "Hello! How can I help you today?".toList

def helpMsg : PyStr :=
  "This is a demo chatbot. You can ask simple questions or set OPENAI_API_KEY to use OpenAI.".toList

def defaultMsg : PyStr :=
  "Sorry, I can".toList ++ [apos] ++
  "t answer that locally. Try setting an OpenAI API key in your environment to get full answers.".toList

def notInstalledMsg : PyStr :=
  "OpenAI package not installed. Install `openai` to enable full responses.".toList

def noKeyMsg : PyStr :=
  "OpenAI API key not set in environment variable OPENAI_API_KEY.".toList

def openaiFailPre : PyStr := "OpenAI request failed: ".toList

def openedPre : PyStr := "Opened browser for images: ".toList

def searchUrlPre : PyStr := "https://www.google.com/search?tbm=isch&q=".toList

def authUrl : PyStr := "https://accounts.google.com/".toList

def greetingMsg : PyStr :=
  "hello i".toList ++ [apos] ++ "m chatjam how can i help you today".toList

def notConfiguredMsg : PyStr :=
  "OpenAI enabled but not configured: install openai package and set OPENAI_API_KEY to use it.".toList

def usageSetMsg (u : Bool) : PyStr :=
  "OpenAI usage set to ".toList ++ (if u then "True".toList else "False".toList)

def botStr : PyStr := "Bot".toList
def youStr : PyStr := "You".toList

def foundMsg (q : PyStr) : PyStr :=
  "Found image for \"".toList ++ q ++ "\"".toList

/-- `ASSET_DIR / f"img_search_{int(time.time())}.png"`. -/
def fnameFor (n : Nat) : PyStr :=
  "C:\\Users\\slane\\Downloads\\img_search_".toList ++ Nat.toDigits 10 n ++ ".png".toList

/-! ## Responder pipeline (local_responder, call_openai, CSE, worker_thread) -/

/-- Result of `local_responder`: a plain string, or the image directive dict
`\x7b"_image_query": q\x7d`. -/
inductive LocalResp
  | text (s : PyStr)
  | imageQuery (q : PyStr)
deriving DecidableEq

def imagePre : PyStr := "image:".toList
def imgPre : PyStr := "/img".toList

/-- `local_responder` (src/chatjam.py lines 48-62). -/
def local_responder (w : World) (prompt : PyStr) : LocalResp :=
  let p := pyStrip (pyLower prompt)
  if pyStartsWith p imagePre || pyStartsWith p imgPre then
    LocalResp.imageQuery
      (if ':' ∈ prompt then pyStrip (afterFirstChar ':' prompt)
       else if ' ' ∈ prompt then afterFirstChar ' ' prompt
       else [])
  else if isSubStr "weather".toList p then LocalResp.text weatherMsg
  else if isSubStr "time".toList p then LocalResp.text (timeMsgPre ++ w.asctime)
  else if isSubStr "hello".toList p || isSubStr "hi".toList p then LocalResp.text helloMsg
  else if isSubStr "help".toList p then LocalResp.text helpMsg
  else LocalResp.text defaultMsg

/-- `call_openai` (lines 65-80).  The request itself is the `openai_chat`
oracle; any exception it raises is its `error` case, and the source converts
it to the failure string. -/
def call_openai (w : World) (prompt : PyStr) (api_key : Option PyStr) : PyStr :=
  if w.openai_installed = false then notInstalledMsg
  else
    match api_key with
    | none => noKeyMsg
    | some _ =>
      match w.openai_chat prompt with
      | Except.ok content => pyStrip content
      | Except.error e => openaiFailPre ++ e

/-- `google_cse_image_search` (lines 83-101): any network or JSON fault
(outer `none`) returns `None`; an absent or empty item list returns `None`;
otherwise the first item's link (itself possibly absent). -/
def google_cse_image_search (w : World) (query api_key cx : PyStr) : Option PyStr :=
  match w.cse_http query api_key cx with
  | none => none
  | some none => none
  | some (some []) => none
  | some (some (item :: _)) => item.link

/-- A value placed on `result_q`: a plain string, the image result dict
`\x7b"text": t, "image": f\x7d`, or — on the fall-through path — the raw
directive dict returned by `local_responder`. -/
inductive QItem
  | str (s : PyStr)
  | imageDict (txt : PyStr) (image : PyStr)
  | rawDict (q : PyStr)
deriving DecidableEq

/-- Modelled from the spec: the `ResultEnvelope` shapes (`Text`/`Notice` are
plain strings, `ImageFound` is the text-plus-image dict); the raw directive
dict is not one of them. -/
def specEnvelopeShaped : QItem → Bool
  | QItem.rawDict _ => false
  | _ => true

/-- Observable effects of one `worker_thread` run: the values put on
`result_q` in order, the browser URLs opened, the files written, and whether
`call_openai` was invoked. -/
structure WorkerTrace where
  enqueued : List QItem
  browserOpens : List PyStr
  filesWritten : List (PyStr × PyStr)
  calledOpenai : Bool
deriving DecidableEq

/-- `worker_thread` (lines 104-142).  Note: when CSE credentials are present
but the search yields no (truthy) link, the source has no matching `else` and
falls through to the regular text response path. -/
def worker_thread (w : World) (prompt : PyStr) (use_openai : Bool) : WorkerTrace :=
  let api_key : Option PyStr := if use_openai then w.openai_api_key else none
  let locResp := local_responder w prompt
  let textPath : WorkerTrace :=
    if use_openai && pyTruthyOpt api_key && w.openai_installed then
      { enqueued := [QItem.str (call_openai w prompt api_key)],
        browserOpens := [], filesWritten := [], calledOpenai := true }
    else
      let res : QItem :=
        match locResp with
        | LocalResp.text s => QItem.str s
        | LocalResp.imageQuery _ =>
          match local_responder w prompt with
          | LocalResp.text s => QItem.str s
          | LocalResp.imageQuery qq => QItem.rawDict qq
      { enqueued := [res], browserOpens := [], filesWritten := [], calledOpenai := false }
  match locResp with
  | LocalResp.text _ => textPath
  | LocalResp.imageQuery q =>
    if pyTruthyOpt w.google_api_key && pyTruthyOpt w.google_cx then
      let link := google_cse_image_search w q (w.google_api_key.getD []) (w.google_cx.getD [])
      if pyTruthyOpt link then
        match w.download (link.getD []) with
        | some dat =>
          { enqueued := [QItem.imageDict (foundMsg q) (fnameFor w.now)],
            browserOpens := [], filesWritten := [(fnameFor w.now, dat)],
            calledOpenai := false }
        | none =>
          { enqueued := [QItem.str (openedPre ++ q)],
            browserOpens := [searchUrlPre ++ pyQuote q], filesWritten := [],
            calledOpenai := false }
      else textPath
    else
      { enqueued := [QItem.str (openedPre ++ q)],
        browserOpens := [searchUrlPre ++ pyQuote q], filesWritten := [],
        calledOpenai := false }

/-- The envelopes a sequence of submissions places on the result channel:
the drain of the queue after all workers ran. -/
def drainAll (subs : List (World × PyStr × Bool)) : List QItem :=
  (subs.map (fun sub => (worker_thread sub.1 sub.2.1 sub.2.2).enqueued)).flatten

/-! ## Layout engine (the render pass of main, lines 269-361) -/

/-- Geometry constants from the source: WIDTH=800, HEIGHT=600,
`panel_rect = Rect(12, 12, WIDTH-24, HEIGHT-120)`. -/
def panelW : Nat := 776
def usableW : Nat := 736
def textX : Int := 28
def codeX : Int := 36
def yStart : Int := 480
def breakY : Int := 22

structure Rect where
  x : Int
  y : Int
  w : Nat
  h : Nat
deriving DecidableEq

def Rect.right (r : Rect) : Int := r.x + (r.w : Int)

/-- One positioned drawable produced by the render pass. -/
inductive Elem
  | label (txt : PyStr) (x y : Int)
  | textLine (txt : PyStr) (x y : Int)
  | codeLine (txt : PyStr) (x y : Int)
  | image (path : PyStr) (r : Rect)
  | linkSpan (url : PyStr) (r : Rect)
deriving DecidableEq

inductive ClickAction
  | openUrl (u : PyStr)
  | openImage (p : PyStr)
deriving DecidableEq

/-- An entry of `rendered_items`: a clickable rect with its action. -/
structure ClickItem where
  rect : Rect
  act : ClickAction
deriving DecidableEq

structure LayoutAcc where
  elems : List Elem
  clicks : List ClickItem
  y : Int
deriving DecidableEq

/-- One step of the greedy wrap loop (lines 323-333), on the pair
(flushed lines so far, accumulated line). -/
def wrapStep (f : Font) (usable : Nat) (acc : List PyStr × PyStr) (wd : PyStr) :
    List PyStr × PyStr :=
  if f.wfn (pyStrip (acc.2 ++ ' ' :: wd)) > usable ∧ acc.2 ≠ [] then (acc.1 ++ [acc.2], wd)
  else (acc.1, pyStrip (acc.2 ++ ' ' :: wd))

/-- The whole wrap loop: the flushed lines, in order, and the residual line. -/
def wrapWords (f : Font) (usable : Nat) (ws : List PyStr) : List PyStr × PyStr :=
  ws.foldl (wrapStep f usable) ([], [])

/-- Emission of one flushed wrap line (lines 328-330). -/
def emitFlushLine (f : Font) (a : LayoutAcc) (l : PyStr) : LayoutAcc :=
  let y1 := a.y - ((f.hfn l : Int) + 6)
  { a with elems := a.elems ++ [Elem.textLine l textX y1], y := y1 }

/-- The elements the flush emissions add, with the running vertical cursor. -/
def flushedElems (f : Font) : Int → List PyStr → List Elem
  | _, [] => []
  | y, l :: ls =>
    let y1 := y - ((f.hfn l : Int) + 6)
    Elem.textLine l textX y1 :: flushedElems f y1 ls

/-- One URL match of the final line (lines 340-354): render the text before
the match, the link span (recorded as clickable), and, when nonblank, the text
after the match at the right edge of the link. -/
def renderUrlSeg (f : Font) (line : PyStr) (a : LayoutAcc) (m : Nat × Nat) : LayoutAcc :=
  let pre := line.take m.1
  let url := (line.take m.2).drop m.1
  let y1 := a.y - ((f.hfn pre : Int) + 6)
  let r : Rect := { x := textX + (f.wfn pre : Int), y := y1, w := f.wfn url, h := f.hfn url }
  let a1 : LayoutAcc :=
    { a with elems := a.elems ++ [Elem.textLine pre textX y1, Elem.linkSpan url r],
             clicks := a.clicks ++ [{ rect := r, act := ClickAction.openUrl url }],
             y := y1 }
  let rest := line.drop m.2
  if pyStrip rest ≠ [] then
    { a1 with elems := a1.elems ++ [Elem.textLine rest r.right y1] }
  else a1

/-- Rendering of the residual wrap line (lines 334-359).  The source uses a
for/else whose loop body has no `break`, so the whole-line render in the else
clause always runs, after the per-match segments. -/
def renderFinal (f : Font) (a : LayoutAcc) (line : PyStr) : LayoutAcc :=
  if line = [] then a
  else
    let a1 := (urlFinditer line).foldl (renderUrlSeg f line) a
    let y2 := a1.y - ((f.hfn line : Int) + 6)
    { a1 with elems := a1.elems ++ [Elem.textLine line textX y2], y := y2 }

/-- One monospace code line (lines 315-318). -/
def renderCodeLine (mf : Font) (a : LayoutAcc) (l : PyStr) : LayoutAcc :=
  let y1 := a.y - ((mf.hfn l : Int) + 4)
  { a with elems := a.elems ++ [Elem.codeLine l codeX y1], y := y1 }

/-- A fenced code part: strip the backticks, then emit one code line per
source line, iterating the lines in reverse (bottom-up). -/
def renderCodePart (mf : Font) (a : LayoutAcc) (part : PyStr) : LayoutAcc :=
  ((pySplitLines (pyStripChar backtickChar part)).reverse).foldl (renderCodeLine mf) a

/-- A prose part: greedy wrap then the residual-line render.  The source
emits each flushed line inside the accumulation loop; emitting the flushed
lines, in order, after the loop yields the identical element sequence since
the measurement steps do not read the vertical cursor. -/
def renderProsePart (f : Font) (a : LayoutAcc) (part : PyStr) : LayoutAcc :=
  match wrapWords f usableW (pySplitSpace part) with
  | (flushed, line) => renderFinal f (flushed.foldl (emitFlushLine f) a) line

def renderPart (fo : Fonts) (a : LayoutAcc) (part : PyStr) : LayoutAcc :=
  if pyStartsWith part bq3 && pyEndsWith part bq3 then renderCodePart fo.mono a part
  else renderProsePart fo.font a part

/-- Python `str()` of the raw directive dict, as the prose path renders it. -/
def dictRepr (q : PyStr) : PyStr :=
  [Char.ofNat 123, apos] ++ "_image_query".toList ++ [apos] ++ ": ".toList ++
  [apos] ++ q ++ [apos] ++ [Char.ofNat 125]

/-- One chat turn (lines 281-359): speaker label, then the image branch or
the text branch (code parts and prose parts).  Image scaling uses exact
rational arithmetic in place of the float arithmetic of the source. -/
def renderTurn (fo : Fonts) (imgLoad : PyStr → Option (Nat × Nat))
    (a : LayoutAcc) (t : PyStr × QItem) : LayoutAcc :=
  let lab := t.1 ++ [':']
  let y1 := a.y - ((fo.big.hfn lab : Int) + 6)
  let a1 : LayoutAcc := { a with elems := a.elems ++ [Elem.label lab textX y1], y := y1 - 6 }
  match t.2 with
  | QItem.imageDict txt path =>
    match imgLoad path with
    | some (w0, h0) =>
      let dims := if w0 > panelW - 40 then ((w0 * (panelW - 40)) / w0, (h0 * (panelW - 40)) / w0)
                  else (w0, h0)
      let y2 := a1.y - (dims.2 : Int)
      let r : Rect := { x := textX, y := y2, w := dims.1, h := dims.2 }
      { a1 with elems := a1.elems ++ [Elem.image path r],
                clicks := a1.clicks ++ [{ rect := r, act := ClickAction.openImage path }],
                y := y2 - 12 }
    | none =>
      let y2 := a1.y - ((fo.font.hfn txt : Int) + 6)
      { a1 with elems := a1.elems ++ [Elem.textLine txt textX y2], y := y2 }
  | QItem.str s => (splitCodeBlocks s).foldl (renderPart fo) a1
  | QItem.rawDict q => (splitCodeBlocks (dictRepr q)).foldl (renderPart fo) a1

/-- The per-frame render loop over the reversed 40-turn suffix, stopping
after the first turn that pushes the cursor above the panel top. -/
def renderTurns (fo : Fonts) (imgLoad : PyStr → Option (Nat × Nat)) :
    LayoutAcc → List (PyStr × QItem) → LayoutAcc
  | a, [] => a
  | a, t :: ts =>
    let a1 := renderTurn fo imgLoad a t
    if a1.y < breakY then a1 else renderTurns fo imgLoad a1 ts

/-- The whole layout pass of one frame. -/
def layoutChat (fo : Fonts) (imgLoad : PyStr → Option (Nat × Nat))
    (chat : List (PyStr × QItem)) : LayoutAcc :=
  renderTurns fo imgLoad { elems := [], clicks := [], y := yStart }
    ((chat.drop (chat.length - 40)).reverse)

def isLinkSpanB : Elem → Bool
  | Elem.linkSpan _ _ => true
  | _ => false

def linkSpans (es : List Elem) : List Elem := es.filter isLinkSpanB

def isCodeLineB : Elem → Bool
  | Elem.codeLine _ _ _ => true
  | _ => false

def codeLines (es : List Elem) : List Elem := es.filter isCodeLineB

/-! ## Frame loop and interaction (main, lines 186-267) -/

/-- `pygame.Rect.collidepoint`: inside including left/top edge, excluding
right/bottom edge; a zero-size rect contains no point. -/
def collide (r : Rect) (p : Int × Int) : Bool :=
  decide (r.x ≤ p.1 ∧ p.1 < r.x + (r.w : Int) ∧ r.y ≤ p.2 ∧ p.2 < r.y + (r.h : Int))

/-- The click scan over `rendered_items` (lines 219-226): first hit wins. -/
def scanClick : List ClickItem → (Int × Int) → Option ClickAction
  | [], _ => none
  | i :: is, p => if collide i.rect p then some i.act else scanClick is p

inductive Key
  | backspace
  | retKey
  | lshift
  | rshift
  | other
deriving DecidableEq

/-- A key event: the key class and `ev.unicode` (none when empty). -/
structure KeyEv where
  key : Key
  unicode : Option Char
deriving DecidableEq

inductive Event
  | quit
  | mouseDown (p : Int × Int)
  | keyDown (k : KeyEv)
deriving DecidableEq

/-- The mutable state of the frame loop (lines 186-199). -/
structure UIState where
  running : Bool
  input_text : PyStr
  chat : List (PyStr × QItem)
  input_active : Bool
  use_openai : Bool
  signed_in : Bool
  sign_rect : Option Rect
  image_modal : Option PyStr
  rendered_items : List ClickItem
deriving DecidableEq

/-- The outcome of handling one event: the new state, the worker spawns, the
browser URLs opened, and whether the sign-in branch fired. -/
structure StepOut where
  state : UIState
  spawns : List (PyStr × Bool)
  opens : List PyStr
  signInFired : Bool
deriving DecidableEq

/-- The event dispatch of one pygame event (lines 204-250). -/
def handleEvent (w : World) (s : UIState) : Event → StepOut
  | Event.quit => { state := { s with running := false }, spawns := [], opens := [], signInFired := false }
  | Event.mouseDown p =>
    if s.image_modal.isSome then
      { state := { s with image_modal := none }, spawns := [], opens := [], signInFired := false }
    else
      let signHit := match s.sign_rect with
        | some r => collide r p
        | none => false
      if signHit then
        { state := { s with signed_in := true }, spawns := [], opens := [authUrl],
          signInFired := true }
      else
        match scanClick s.rendered_items p with
        | some (ClickAction.openUrl u) =>
          { state := s, spawns := [], opens := [u], signInFired := false }
        | some (ClickAction.openImage ip) =>
          { state := { s with image_modal := some ip }, spawns := [], opens := [],
            signInFired := false }
        | none => { state := s, spawns := [], opens := [], signInFired := false }
  | Event.keyDown k =>
    if s.input_active = false then
      { state := s, spawns := [], opens := [], signInFired := false }
    else
      let step : UIState × List (PyStr × Bool) :=
        match k.key with
        | Key.backspace => ({ s with input_text := s.input_text.dropLast }, [])
        | Key.retKey =>
          if pyStrip s.input_text ≠ [] then
            ({ s with chat := s.chat ++ [(youStr, QItem.str s.input_text)], input_text := [] },
             [(s.input_text, s.use_openai)])
          else (s, [])
        | _ =>
          match k.unicode with
          | some c => ({ s with input_text := s.input_text ++ [c] }, [])
          | none => (s, [])
      let s1 := step.1
      if k.key = Key.lshift ∨ k.key = Key.rshift then
        let u := !s1.use_openai
        let msg := if u && (!w.openai_installed || w.openai_api_key.isNone) then notConfiguredMsg
                   else usageSetMsg u
        let s2 := { s1 with use_openai := u, chat := s1.chat ++ [(botStr, QItem.str msg)] }
        { state := s2, spawns := step.2, opens := [], signInFired := false }
      else
        { state := s1, spawns := step.2, opens := [], signInFired := false }

/-- Fold of `handleEvent` over the events polled in one frame. -/
def processEvents (w : World) (s : UIState) : List Event → StepOut
  | [] => { state := s, spawns := [], opens := [], signInFired := false }
  | e :: es =>
    let o := handleEvent w s e
    let rest := processEvents w o.state es
    { state := rest.state, spawns := o.spawns ++ rest.spawns,
      opens := o.opens ++ rest.opens, signInFired := o.signInFired || rest.signInFired }

/-- One frame: poll events, drain the result channel into the chat, then
recompute the frame's clickable items from the layout pass.  `results` are
the envelopes available in the queue this frame. -/
def frame (w : World) (s : UIState) (evs : List Event) (results : List QItem) : StepOut :=
  let o := processEvents w s evs
  let s1 := { o.state with chat := o.state.chat ++ results.map (fun r => (botStr, r)) }
  let s2 := { s1 with rendered_items := (layoutChat w.fonts w.imgLoad s1.chat).clicks }
  { o with state := s2 }

/-- Run of the frame loop on a schedule of frames (events plus queue
arrivals per frame); the flag records whether any sign-in branch fired. -/
def runFrames (w : World) : UIState → List (List Event × List QItem) → UIState × Bool
  | s, [] => (s, false)
  | s, f :: fs =>
    if s.running then
      let o := frame w s f.1 f.2
      let rest := runFrames w o.state fs
      (rest.1, o.signInFired || rest.2)
    else (s, false)

/-- The initial frame-loop state (lines 186-199). -/
def initState (w : World) : UIState :=
  { running := true, input_text := [], chat := [(botStr, QItem.str greetingMsg)],
    input_active := true,
    use_openai := w.openai_api_key.isSome && w.openai_installed,
    signed_in := false, sign_rect := none, image_modal := none, rendered_items := [] }

/-- A frame state holding a given frame's clickable items, used to state the
click-routing claims. -/
def clickState (items : List ClickItem) : UIState :=
  { running := true, input_text := [], chat := [], input_active := true,
    use_openai := false, signed_in := false, sign_rect := none,
    image_modal := none, rendered_items := items }

/-! ## Concrete test fixtures -/

/-- A concrete proportional measurement: ten pixels per character, constant
line height. -/
def F10f : Font := { wfn := fun s => 10 * s.length, hfn := fun _ => 20 }
def F10 : Fonts := { font := F10f, big := F10f, mono := F10f }

def imgNone : PyStr → Option (Nat × Nat) := fun _ => none

/-- A world with nothing configured: no packages, no credentials, every
network call faults. -/
def W0 : World :=
  { openai_installed := false, openai_api_key := none, google_api_key := none,
    google_cx := none, asctime := [], now := 0,
    openai_chat := fun _ => Except.error [], cse_http := fun _ _ _ => none,
    download := fun _ => none, fonts := F10, imgLoad := imgNone }

/-- OpenAI installed and keyed, CSE credentials present, the image search
succeeds over the network but returns an empty item list (no result). -/
def W1 : World :=
  { W0 with
    openai_installed := true,
    openai_api_key := some "sk".toList,
    google_api_key := some "gk".toList,
    google_cx := some "gc".toList,
    cse_http := fun _ _ _ => some (some []),
    openai_chat := fun _ => Except.ok "An answer".toList }

/-- CSE credentials present, search succeeds with an empty item list, no
OpenAI. -/
def W3 : World :=
  { W0 with
    google_api_key := some "gk".toList,
    google_cx := some "gc".toList,
    cse_http := fun _ _ _ => some (some []) }

/-- CSE credentials present but the search HTTP request faults. -/
def W5 : World :=
  { W0 with
    google_api_key := some "gk".toList,
    google_cx := some "gc".toList }

/-- The code-block scenario turn of the spec. -/
def codeTurn : PyStr := "```\nline1\nline2\n```".toList

/-- A turn whose URL is wrapped into a flushed (non-final) line: the URL plus
enough following text to overflow the usable width. -/
def sC2 : PyStr :=
  "see http://example.com ".toList ++ List.replicate 30 'a' ++ [' '] ++ List.replicate 30 'a'

def urlC2 : PyStr := "http://example.com".toList

/-- A short turn whose single URL sits on the final residual line. -/
def sC2w : PyStr := "see http://x.com ok".toList

/-- The link rect the layout produces for `sC2w` under `F10`. -/
def rC2w : Rect := { x := 68, y := 422, w := 120, h := 20 }

/-- A 74-character word: 740 measured pixels, wider than the 736 usable. -/
def longWord : PyStr := List.replicate 74 'a'

def sC6 : PyStr := longWord ++ " b".toList

/-- A short two-word turn used as witness input for the wrap bound. -/
def sC6w : PyStr := "ab c".toList

/-! ## Helper lemmas -/

theorem pyStrip_space_cons (l : PyStr) : pyStrip (' ' :: l) = pyStrip l := by
  simp [pyStrip, List.dropWhile_cons, isPySpace]

/-- Invariant of the greedy wrap loop: when every word fits (raw and
trimmed), every flushed line fits and the residual line is empty or fits. -/
theorem wrapStep_foldl_bounded (f : Font) (usable : Nat) (ws : List PyStr)
    (acc : List PyStr × PyStr)
    (hw : ∀ wd ∈ ws, f.wfn wd ≤ usable ∧ f.wfn (pyStrip wd) ≤ usable)
    (h1 : ∀ l ∈ acc.1, f.wfn l ≤ usable)
    (h2 : acc.2 = [] ∨ f.wfn acc.2 ≤ usable) :
    (∀ l ∈ (List.foldl (wrapStep f usable) acc ws).1, f.wfn l ≤ usable) ∧
    ((List.foldl (wrapStep f usable) acc ws).2 = [] ∨
      f.wfn (List.foldl (wrapStep f usable) acc ws).2 ≤ usable) := by
  induction ws generalizing acc with
  | nil => exact ⟨h1, h2⟩
  | cons wd ws ih =>
    have hwd := hw wd (by simp)
    have hwtail : ∀ x ∈ ws, f.wfn x ≤ usable ∧ f.wfn (pyStrip x) ≤ usable :=
      fun x hx => hw x (by simp [hx])
    simp only [List.foldl_cons]
    apply ih _ hwtail
    · intro l hl
      unfold wrapStep at hl
      by_cases hc : f.wfn (pyStrip (acc.2 ++ ' ' :: wd)) > usable ∧ acc.2 ≠ []
      · rw [if_pos hc] at hl
        rcases List.mem_append.mp hl with hm | hm
        · exact h1 l hm
        · simp only [List.mem_singleton] at hm
          subst hm
          rcases h2 with h2 | h2
          · exact absurd h2 hc.2
          · exact h2
      · rw [if_neg hc] at hl
        exact h1 l hl
    · unfold wrapStep
      by_cases hc : f.wfn (pyStrip (acc.2 ++ ' ' :: wd)) > usable ∧ acc.2 ≠ []
      · rw [if_pos hc]
        exact Or.inr hwd.1
      · rw [if_neg hc]
        by_cases hfit : f.wfn (pyStrip (acc.2 ++ ' ' :: wd)) ≤ usable
        · exact Or.inr hfit
        · have hempty : acc.2 = [] := by
            by_contra hne
            exact hc ⟨Nat.lt_of_not_le hfit, hne⟩
          right
          rw [hempty]
          simpa [pyStrip_space_cons] using hwd.2

/-- The interleaved flush emissions equal the post-hoc emission of the
flushed lines, with the vertical cursor threaded through. -/
theorem emitFlush_foldl (f : Font) (fl : List PyStr) (a : LayoutAcc) :
    List.foldl (emitFlushLine f) a fl =
      { elems := a.elems ++ flushedElems f a.y fl, clicks := a.clicks,
        y := List.foldl (fun y l => y - ((f.hfn l : Int) + 6)) a.y fl } := by
  induction fl generalizing a with
  | nil => simp [flushedElems]
  | cons l ls ih =>
    simp only [List.foldl_cons]
    rw [ih]
    simp [emitFlushLine, flushedElems]

theorem linkSpans_append (u v : List Elem) :
    linkSpans (u ++ v) = linkSpans u ++ linkSpans v := by
  simp [linkSpans, List.filter_append]

theorem linkSpans_nil : linkSpans ([] : List Elem) = [] := rfl

theorem linkSpans_cons_label (t : PyStr) (x y : Int) (es : List Elem) :
    linkSpans (Elem.label t x y :: es) = linkSpans es := by
  simp [linkSpans, List.filter_cons, isLinkSpanB]

theorem linkSpans_cons_textLine (t : PyStr) (x y : Int) (es : List Elem) :
    linkSpans (Elem.textLine t x y :: es) = linkSpans es := by
  simp [linkSpans, List.filter_cons, isLinkSpanB]

theorem linkSpans_cons_linkSpan (u : PyStr) (r : Rect) (es : List Elem) :
    linkSpans (Elem.linkSpan u r :: es) = Elem.linkSpan u r :: linkSpans es := by
  simp [linkSpans, List.filter_cons, isLinkSpanB]

theorem linkSpans_flushedElems (f : Font) (y : Int) (fl : List PyStr) :
    linkSpans (flushedElems f y fl) = [] := by
  induction fl generalizing y with
  | nil => simp [flushedElems, linkSpans]
  | cons l ls ih =>
    simp only [flushedElems, linkSpans] at ih ⊢
    rw [List.filter_cons]
    simp [isLinkSpanB, ih]

theorem textLine_mem_flushedElems (f : Font) (y : Int) (fl : List PyStr)
    (t : PyStr) (x yt : Int) (h : Elem.textLine t x yt ∈ flushedElems f y fl) :
    t ∈ fl := by
  induction fl generalizing y with
  | nil => simp [flushedElems] at h
  | cons l ls ih =>
    simp only [flushedElems, List.mem_cons] at h
    rcases h with h | h
    · cases h; simp
    · exact List.mem_cons_of_mem _ (ih _ h)

theorem renderTurns_single (fo : Fonts) (img : PyStr → Option (Nat × Nat))
    (a : LayoutAcc) (t : PyStr × QItem) :
    renderTurns fo img a [t] = renderTurn fo img a t := by
  simp [renderTurns]

/-- The layout of a single plain-prose text turn, in closed form up to the
residual-line render. -/
theorem layout_single_text (fo : Fonts) (img : PyStr → Option (Nat × Nat))
    (spk s : PyStr) (flushed : List PyStr) (line : PyStr)
    (hparts : splitCodeBlocks s = [s])
    (hcode : (pyStartsWith s bq3 && pyEndsWith s bq3) = false)
    (hwrap : wrapWords fo.font usableW (pySplitSpace s) = (flushed, line)) :
    layoutChat fo img [(spk, QItem.str s)] =
      renderFinal fo.font
        { elems := [Elem.label (spk ++ [':']) textX
              (yStart - ((fo.big.hfn (spk ++ [':']) : Int) + 6))] ++
            flushedElems fo.font (yStart - ((fo.big.hfn (spk ++ [':']) : Int) + 6) - 6) flushed,
          clicks := [],
          y := List.foldl (fun y l => y - ((fo.font.hfn l : Int) + 6))
                 (yStart - ((fo.big.hfn (spk ++ [':']) : Int) + 6) - 6) flushed } line := by
  unfold layoutChat
  simp only [List.length_cons, List.length_nil, List.drop, List.reverse_cons,
    List.reverse_nil, List.nil_append]
  rw [renderTurns_single]
  unfold renderTurn
  simp only []
  rw [hparts]
  simp only [List.foldl_cons, List.foldl_nil]
  unfold renderPart
  rw [hcode]
  simp only [Bool.false_eq_true, if_false]
  unfold renderProsePart
  rw [hwrap]
  simp only []
  rw [emitFlush_foldl]
  simp

/-! ## Claim theorems -/

set_option maxRecDepth 8000

/-- C1: the claim says worker_thread never invokes call_openai for an
image-directive prompt, in particular when image-search credentials are
present but the search yields no result.  The code refutes it: in exactly
that configuration (W1: credentials set, CSE returns an empty item list,
AI mode on with a key and the openai package) the directive falls through to
the regular text path and call_openai is invoked on the directive prompt,
whose reply is enqueued as the response. -/
theorem image_directive_reaches_openai_bug :
    (worker_thread W1 "image: cats".toList true).calledOpenai = true ∧
    (worker_thread W1 "image: cats".toList true).enqueued =
      [QItem.str "An answer".toList] := by
  constructor <;> rfl

/-- C3: the claim says every value placed on the result channel is a
well-formed envelope and a raw directive dict is never enqueued.  The code
refutes it: with CSE credentials present, a search that returns no result,
and AI mode off, worker_thread enqueues the raw directive dict
\x7b"_image_query": "cats"\x7d itself. -/
theorem raw_directive_dict_enqueued_bug :
    (worker_thread W3 "image: cats".toList false).enqueued =
      [QItem.rawDict "cats".toList] ∧
    specEnvelopeShaped (QItem.rawDict "cats".toList) = false := by
  constructor <;> rfl

/-- C5: the claim says every collaborator fault degrades to a Text or Notice
envelope describing it.  The code refutes it for the image-search network
fault with credentials present: the fault is caught (the search returns
None) but the worker then falls through and enqueues the raw directive dict,
which is not a Text/Notice envelope. -/
theorem search_fault_yields_raw_dict_bug :
    (worker_thread W5 "/img dogs".toList false).enqueued =
      [QItem.rawDict "dogs".toList] ∧
    specEnvelopeShaped (QItem.rawDict "dogs".toList) = false := by
  constructor <;> rfl

/-- C4: every worker invocation enqueues exactly one value on the result
channel, on every control path; hence draining after N submissions yields
exactly N envelopes. -/
theorem exactly_one_envelope_per_submission :
    (∀ (w : World) (p : PyStr) (u : Bool), (worker_thread w p u).enqueued.length = 1) ∧
    (∀ subs : List (World × PyStr × Bool), (drainAll subs).length = subs.length) := by
  have h1 : ∀ (w : World) (p : PyStr) (u : Bool),
      (worker_thread w p u).enqueued.length = 1 := by
    intro w p u
    unfold worker_thread
    rcases hl : local_responder w p with s | q <;> dsimp only <;>
      repeat' first
        | rfl
        | split

  refine ⟨h1, ?_⟩
  intro subs
  induction subs with
  | nil => rfl
  | cons sub rest ih =>
    simp only [drainAll, List.map_cons, List.flatten_cons, List.length_append,
      List.length_cons] at ih ⊢
    rw [h1, ih]
    omega

/-- C10: a bare directive with no query text is still classified as an image
directive with the empty query; with no search credentials the worker opens
the browser on the empty-query image search and enqueues the Notice string,
for either mode flag. -/
theorem bare_directive_empty_query (w : World) (u : Bool)
    (h : (pyTruthyOpt w.google_api_key && pyTruthyOpt w.google_cx) = false) :
    local_responder w "image:".toList = LocalResp.imageQuery [] ∧
    local_responder w "/img".toList = LocalResp.imageQuery [] ∧
    worker_thread w "image:".toList u =
      { enqueued := [QItem.str openedPre], browserOpens := [searchUrlPre],
        filesWritten := [], calledOpenai := false } ∧
    worker_thread w "/img".toList u =
      { enqueued := [QItem.str openedPre], browserOpens := [searchUrlPre],
        filesWritten := [], calledOpenai := false } := by
  have h1 : local_responder w "image:".toList = LocalResp.imageQuery [] := rfl
  have h2 : local_responder w "/img".toList = LocalResp.imageQuery [] := rfl
  refine ⟨h1, h2, ?_, ?_⟩ <;>
  · unfold worker_thread
    first
      | rw [h1]
      | rw [h2]
    simp [h, openedPre, searchUrlPre, pyQuote]

theorem bare_directive_empty_query_witness :
    worker_thread W0 "image:".toList false =
      { enqueued := [QItem.str openedPre], browserOpens := [searchUrlPre],
        filesWritten := [], calledOpenai := false } :=
  (bare_directive_empty_query W0 false (by decide)).2.2.1

/-- C7: the claim says the code-block turn yields exactly two CodeLine
elements.  The code refutes it: the fence content is the string between the
backticks, whose leading newline contributes an empty first source line, so
three CodeLine elements are emitted. -/
theorem code_block_two_lines_counterexample :
    (codeLines (layoutChat F10 imgNone [(botStr, QItem.str codeTurn)]).elems).length ≠ 2 := by
  decide

/-- C7 amended: the turn yields exactly three CodeLine elements — line2
lowest, line1 above it, and the empty leading line topmost — so line2 is
positioned below line1 and reading order is preserved. -/
theorem code_block_three_lines_order :
    codeLines (layoutChat F10 imgNone [(botStr, QItem.str codeTurn)]).elems =
      [Elem.codeLine "line2".toList codeX 424, Elem.codeLine "line1".toList codeX 400,
       Elem.codeLine [] codeX 376] ∧ (400 : Int) < 424 := by
  constructor
  · rfl
  · decide

/-- C2: the claim says a URL embedded mid-sentence yields exactly one
LinkSpan on whatever wrapped line it falls.  The code refutes it: URL
detection runs only on the final residual line of the wrap, so a URL that is
flushed into an earlier wrapped line yields no LinkSpan at all. -/
theorem url_on_flushed_line_no_linkspan :
    isSubStr urlC2 sC2 = true ∧ urlFinditer sC2 = [(4, 22)] ∧
    linkSpans (layoutChat F10 imgNone [(botStr, QItem.str sC2)]).elems = [] := by
  refine ⟨by decide, by rfl, by rfl⟩

/-- C6: the claim says the wrap step never emits a TextLine wider than the
usable width for inputs without over-wide URLs.  The code refutes it: an
over-wide ordinary word (no URLs anywhere in the input) is flushed verbatim
as a TextLine measuring 740 > 736 pixels. -/
theorem long_word_overflow_counterexample :
    urlFinditer sC6 = [] ∧
    Elem.textLine longWord textX 422 ∈
      (layoutChat F10 imgNone [(botStr, QItem.str sC6)]).elems ∧
    F10.font.wfn longWord > usableW := by
  refine ⟨by rfl, by decide, by decide⟩

/-- C9: pressing Enter with an empty or whitespace-only input buffer leaves
the frame-loop state unchanged: no turn is appended, no worker is spawned,
no browser opens, and the buffer is untouched. -/
theorem empty_enter_no_effect (w : World) (s : UIState) (k : KeyEv)
    (hk : k.key = Key.retKey) (h : pyStrip s.input_text = []) :
    handleEvent w s (Event.keyDown k) =
      { state := s, spawns := [], opens := [], signInFired := false } := by
  unfold handleEvent
  rcases hia : s.input_active with _ | _
  · simp [hia]
  · simp [hia, hk, h]

theorem empty_enter_no_effect_witness :
    handleEvent W0 { clickState [] with input_text := "  ".toList }
      (Event.keyDown { key := Key.retKey, unicode := none }) =
      { state := { clickState [] with input_text := "  ".toList }, spawns := [],
        opens := [], signInFired := false } :=
  empty_enter_no_effect W0 _ _ rfl (by decide)

theorem handleEvent_sign_inv (w : World) (s : UIState) (e : Event)
    (h1 : s.sign_rect = none) (h2 : s.signed_in = false) :
    (handleEvent w s e).state.sign_rect = none ∧
    (handleEvent w s e).state.signed_in = false ∧
    (handleEvent w s e).signInFired = false := by
  cases e <;> unfold handleEvent <;>
    repeat' first
      | rfl
      | (exact ⟨h1, h2, rfl⟩)
      | split
      | simp_all

theorem processEvents_sign_inv (w : World) (evs : List Event) (s : UIState)
    (h1 : s.sign_rect = none) (h2 : s.signed_in = false) :
    (processEvents w s evs).state.sign_rect = none ∧
    (processEvents w s evs).state.signed_in = false ∧
    (processEvents w s evs).signInFired = false := by
  induction evs generalizing s with
  | nil => exact ⟨h1, h2, rfl⟩
  | cons e es ih =>
    have he := handleEvent_sign_inv w s e h1 h2
    have hrest := ih (handleEvent w s e).state he.1 he.2.1
    simp only [processEvents]
    exact ⟨hrest.1, hrest.2.1, by simp [he.2.2, hrest.2.2]⟩

theorem frame_sign_inv (w : World) (s : UIState) (evs : List Event) (res : List QItem)
    (h1 : s.sign_rect = none) (h2 : s.signed_in = false) :
    (frame w s evs res).state.sign_rect = none ∧
    (frame w s evs res).state.signed_in = false ∧
    (frame w s evs res).signInFired = false := by
  have hp := processEvents_sign_inv w evs s h1 h2
  exact ⟨hp.1, hp.2.1, hp.2.2⟩

theorem runFrames_sign_inv (w : World) (frames : List (List Event × List QItem))
    (s : UIState) (h1 : s.sign_rect = none) (h2 : s.signed_in = false) :
    (runFrames w s frames).1.sign_rect = none ∧
    (runFrames w s frames).1.signed_in = false ∧
    (runFrames w s frames).2 = false := by
  induction frames generalizing s with
  | nil => exact ⟨h1, h2, rfl⟩
  | cons f fs ih =>
    by_cases hr : s.running = true
    · have hf := frame_sign_inv w s f.1 f.2 h1 h2
      have hrest := ih (frame w s f.1 f.2).state hf.1 hf.2.1
      simp only [runFrames, hr, if_true]
      exact ⟨hrest.1, hrest.2.1, by simp [hf.2.2, hrest.2.2]⟩
    · simp [runFrames, hr, h1, h2]

/-- C8: in every reachable state of the frame loop, `sign_rect` stays `None`
and `signed_in` stays false, and the sign-in click branch never fires (so no
click opens the authentication URL through it): the rect is initialized to
`None` and no statement ever assigns it a box. -/
theorem sign_in_unreachable (w : World) (frames : List (List Event × List QItem)) :
    (runFrames w (initState w) frames).1.signed_in = false ∧
    (runFrames w (initState w) frames).1.sign_rect = none ∧
    (runFrames w (initState w) frames).2 = false := by
  have h := runFrames_sign_inv w frames (initState w) rfl rfl
  exact ⟨h.2.1, h.1, h.2.2⟩

/-- C6 amended: the greedy wrap never emits a TextLine wider than the usable
width provided every space-separated word of the input — raw and
whitespace-trimmed — measures within the usable width (an over-wide single
word, URL or not, is flushed verbatim and exceeds it).  Stated for a
fence-free turn whose residual line carries no URL, covering every TextLine
the turn emits. -/
theorem wrap_within_usable_width (fo : Fonts) (img : PyStr → Option (Nat × Nat))
    (spk s : PyStr) (flushed : List PyStr) (line : PyStr)
    (hparts : splitCodeBlocks s = [s])
    (hcode : (pyStartsWith s bq3 && pyEndsWith s bq3) = false)
    (hwrap : wrapWords fo.font usableW (pySplitSpace s) = (flushed, line))
    (hurl : urlFinditer line = [])
    (hwords : ∀ wd ∈ pySplitSpace s, fo.font.wfn wd ≤ usableW ∧
      fo.font.wfn (pyStrip wd) ≤ usableW) :
    ∀ t x y, Elem.textLine t x y ∈ (layoutChat fo img [(spk, QItem.str s)]).elems →
      fo.font.wfn t ≤ usableW := by
  intro t x y hmem
  rw [layout_single_text fo img spk s flushed line hparts hcode hwrap] at hmem
  have hbound := wrapStep_foldl_bounded fo.font usableW (pySplitSpace s) ([], [])
    hwords (by simp) (Or.inl rfl)
  rw [show List.foldl (wrapStep fo.font usableW) ([], []) (pySplitSpace s) =
      wrapWords fo.font usableW (pySplitSpace s) from rfl, hwrap] at hbound
  unfold renderFinal at hmem
  by_cases hl : line = []
  · rw [if_pos hl] at hmem
    simp only [List.mem_append, List.mem_singleton] at hmem
    rcases hmem with hmem | hmem
    · simp at hmem
    · exact hbound.1 t (textLine_mem_flushedElems _ _ _ _ _ _ hmem)
  · rw [if_neg hl] at hmem
    rw [hurl] at hmem
    simp only [List.foldl_nil, List.mem_append, List.mem_singleton] at hmem
    rcases hmem with (hmem | hmem) | hmem
    · simp at hmem
    · exact hbound.1 t (textLine_mem_flushedElems _ _ _ _ _ _ hmem)
    · simp only [Elem.textLine.injEq] at hmem
      rw [hmem.1]
      rcases hbound.2 with hb | hb
      · exact absurd hb hl
      · exact hb

theorem wrap_within_usable_width_witness :
    F10.font.wfn sC6w ≤ usableW :=
  wrap_within_usable_width F10 imgNone botStr sC6w [] sC6w rfl rfl rfl rfl
    (by decide) sC6w textX 422 (by decide)

/-- C2 amended: a URL produces exactly one LinkSpan only when it falls on
the final residual line of the wrap (URLs on earlier flushed lines undergo
no URL detection and produce none).  On the final line the LinkSpan sits
immediately after the preceding text at the same height, trailing text
continues from its right edge, and a click anywhere inside its box opens
exactly that URL. -/
theorem url_final_line_single_linkspan
    (fo : Fonts) (w : World) (img : PyStr → Option (Nat × Nat))
    (spk s : PyStr) (flushed : List PyStr) (line pre url rest : PyStr)
    (a b : Nat) (yF yL : Int) (r : Rect)
    (hparts : splitCodeBlocks s = [s])
    (hcode : (pyStartsWith s bq3 && pyEndsWith s bq3) = false)
    (hwrap : wrapWords fo.font usableW (pySplitSpace s) = (flushed, line))
    (hurl : urlFinditer line = [(a, b)])
    (hpre : pre = line.take a)
    (hu : url = (line.take b).drop a)
    (hrest : rest = line.drop b)
    (hyF : yF = List.foldl (fun y l => y - ((fo.font.hfn l : Int) + 6))
             (yStart - ((fo.big.hfn (spk ++ [':']) : Int) + 6) - 6) flushed)
    (hyL : yL = yF - ((fo.font.hfn pre : Int) + 6))
    (hr : r = { x := textX + (fo.font.wfn pre : Int), y := yL,
                w := fo.font.wfn url, h := fo.font.hfn url }) :
    linkSpans (layoutChat fo img [(spk, QItem.str s)]).elems = [Elem.linkSpan url r] ∧
    (layoutChat fo img [(spk, QItem.str s)]).clicks =
      [{ rect := r, act := ClickAction.openUrl url }] ∧
    Elem.textLine pre textX yL ∈ (layoutChat fo img [(spk, QItem.str s)]).elems ∧
    (pyStrip rest ≠ [] →
      Elem.textLine rest r.right yL ∈ (layoutChat fo img [(spk, QItem.str s)]).elems) ∧
    (∀ p : Int × Int, collide r p = true →
      handleEvent w (clickState (layoutChat fo img [(spk, QItem.str s)]).clicks)
        (Event.mouseDown p) =
        { state := clickState (layoutChat fo img [(spk, QItem.str s)]).clicks,
          spawns := [], opens := [url], signInFired := false }) := by
  subst hpre hu hrest hyF hyL hr
  have hline : line ≠ [] := by
    intro hl
    rw [hl] at hurl
    exact absurd hurl (by simp [urlFinditer, urlFinditerAux])
  rw [layout_single_text fo img spk s flushed line hparts hcode hwrap]
  unfold renderFinal
  rw [if_neg hline, hurl]
  simp only [List.foldl_cons, List.foldl_nil]
  unfold renderUrlSeg
  by_cases hne : pyStrip (line.drop b) ≠ []
  · rw [if_pos hne]
    refine ⟨?_, ?_, ?_, ?_, ?_⟩
    · simp only [linkSpans_append, linkSpans_flushedElems, linkSpans_cons_label,
        linkSpans_cons_textLine, linkSpans_cons_linkSpan, linkSpans_nil,
        List.append_nil, List.nil_append, List.cons_append, List.singleton_append]
    · rfl
    · simp
    · intro _
      simp [Rect.right]
    · intro p hp
      simp [handleEvent, clickState, scanClick, hp]
  · rw [if_neg hne]
    refine ⟨?_, ?_, ?_, ?_, ?_⟩
    · simp only [linkSpans_append, linkSpans_flushedElems, linkSpans_cons_label,
        linkSpans_cons_textLine, linkSpans_cons_linkSpan, linkSpans_nil,
        List.append_nil, List.nil_append, List.cons_append, List.singleton_append]
    · rfl
    · simp
    · intro hc
      exact absurd hc hne
    · intro p hp
      simp [handleEvent, clickState, scanClick, hp]

theorem url_final_line_single_linkspan_witness :
    linkSpans (layoutChat F10 imgNone [(botStr, QItem.str sC2w)]).elems =
      [Elem.linkSpan "http://x.com".toList rC2w] ∧
    handleEvent W0 (clickState (layoutChat F10 imgNone [(botStr, QItem.str sC2w)]).clicks)
      (Event.mouseDown (68, 422)) =
      { state := clickState (layoutChat F10 imgNone [(botStr, QItem.str sC2w)]).clicks,
        spawns := [], opens := ["http://x.com".toList], signInFired := false } := by
  have h := url_final_line_single_linkspan F10 W0 imgNone botStr sC2w []
    ("see http://x.com ok".toList) ("see ".toList) ("http://x.com".toList) (" ok".toList)
    4 16 448 422 rC2w rfl rfl rfl rfl (by decide) (by decide) (by decide) (by decide)
    (by decide) (by decide)
  exact ⟨h.1, h.2.2.2.2 (68, 422) (by decide)⟩

end Chatjam
